import Mathlib

/-!
Verification of the Live Multimodal Session Engine (App.tsx / types.ts).

Shallow embedding conventions:
- Audio-context times and buffer durations (seconds) are rationals.
- Wall-clock milliseconds (for `setTimeout` dwell timers) are naturals.
- The JS `Set<AudioBufferSourceNode>` of active playback units is a list of
  unit ids; `MediaStream`s and `Session`s are likewise tracked by id.
- Fallible environment effects (decode, geolocation, HTTP fetch) are passed
  in as explicit outcome values.
-/

namespace DejaVu

/-! ## Playback scheduler (App.tsx lines 241-264)

State touched by the audio branch of `onmessage`:
`nextStartTimeRef` (the PlaybackClock) and `sourcesRef` (the active set).
-/

/-- State of the playback scheduler: the `nextStartTimeRef` clock, the set of
active `AudioBufferSourceNode`s (by id), and a fresh-id counter. -/
structure SchedState where
  nextStartTime : ℚ
  sources : List ℕ
  nextSrcId : ℕ
  deriving Repr, DecidableEq

/-- Initial scheduler state: `nextStartTimeRef.current = 0`, empty source set. -/
def SchedState.init : SchedState := ⟨0, [], 0⟩

/-- Handling of one inbound audio chunk (App.tsx lines 242-258).
`now` is `ctx.currentTime` at arrival; `dec` is `some d` when
`decodeAudioData` succeeds with a buffer of duration `d`, `none` when it
throws.  The clamp `nextStartTimeRef.current = max(nextStartTimeRef.current,
ctx.currentTime)` happens before the decode attempt (line 245).  Returns the
new state and `some (startTime, duration)` when a unit was scheduled. -/
def handleAudioChunk (s : SchedState) (now : ℚ) (dec : Option ℚ) :
    SchedState × Option (ℚ × ℚ) :=
  let clk := max s.nextStartTime now
  match dec with
  | none => ({ s with nextStartTime := clk }, none)
  | some d =>
      ({ nextStartTime := clk + d,
         sources := s.sources ++ [s.nextSrcId],
         nextSrcId := s.nextSrcId + 1 }, some (clk, d))

/-- The `ended` listener (App.tsx line 251): the finished source is removed
from the active set. -/
def handleEnded (s : SchedState) (id : ℕ) : SchedState :=
  { s with sources := s.sources.erase id }

/-- The `interrupted` branch (App.tsx lines 260-264): stop every source,
clear the set, reset the clock to zero. -/
def handleInterrupted (s : SchedState) : SchedState :=
  { s with nextStartTime := 0, sources := [] }

/-- Run a sequence of successfully-decoding chunks through the scheduler.
Each element is `(arrival output-clock time, decoded duration)`.  Returns the
final state and the list of `(startTime, duration)` pairs scheduled. -/
def runChunks (s : SchedState) : List (ℚ × ℚ) → SchedState × List (ℚ × ℚ)
  | [] => (s, [])
  | (t, d) :: rest =>
      let step := handleAudioChunk s t (some d)
      let next := runChunks step.1 rest
      (next.1, step.2.toList ++ next.2)

/-- Start times as the spec words them: `start_k = max (start_(k-1) + d_(k-1),
outputClockAtArrival_k)` with `start_0 + d_0` taken as the initial clock.
This definition follows the SPEC sentence, to be compared with `runChunks`. -/
def specStartTimes (clk : ℚ) : List (ℚ × ℚ) → List ℚ
  | [] => []
  | (t, d) :: rest =>
      let st := max clk t
      st :: specStartTimes (st + d) rest

/-- `arrivesOnTime clk chunks` holds when every chunk arrives (its output
clock reading) no later than the clock value scheduled so far, i.e. before
the previous unit finishes playing. -/
def arrivesOnTime (clk : ℚ) : List (ℚ × ℚ) → Bool
  | [] => true
  | (t, d) :: rest => decide (t ≤ clk) && arrivesOnTime (max clk t + d) rest

lemma runChunks_starts (s : SchedState) (chunks : List (ℚ × ℚ)) :
    (runChunks s chunks).2.map Prod.fst = specStartTimes s.nextStartTime chunks ∧
    (runChunks s chunks).2.map Prod.snd = chunks.map Prod.snd := by
  induction chunks generalizing s with
  | nil => simp [runChunks, specStartTimes]
  | cons hd tl ih =>
      obtain ⟨t, d⟩ := hd
      simpa [runChunks, handleAudioChunk, specStartTimes] using
        ih { nextStartTime := max s.nextStartTime t + d,
             sources := s.sources ++ [s.nextSrcId],
             nextSrcId := s.nextSrcId + 1 }

lemma runChunks_clock_of_onTime (s : SchedState) (chunks : List (ℚ × ℚ))
    (h : arrivesOnTime s.nextStartTime chunks = true) :
    (runChunks s chunks).1.nextStartTime =
      s.nextStartTime + (chunks.map Prod.snd).sum := by
  induction chunks generalizing s with
  | nil => simp [runChunks]
  | cons hd tl ih =>
      obtain ⟨t, d⟩ := hd
      simp only [arrivesOnTime, Bool.and_eq_true, decide_eq_true_eq] at h
      obtain ⟨ht, hrest⟩ := h
      have hmax : max s.nextStartTime t = s.nextStartTime := max_eq_left ht
      have := ih { nextStartTime := max s.nextStartTime t + d,
                   sources := s.sources ++ [s.nextSrcId],
                   nextSrcId := s.nextSrcId + 1 } (by simpa using hrest)
      simp only [runChunks, handleAudioChunk, List.map_cons, List.sum_cons] at *
      rw [this, hmax]
      ring

/-! ### C1 -/

/-- C1: for a sequence of inbound audio chunks that all decode successfully,
with no interruption and no stop, the start time computed for chunk k equals
`max (start_(k-1) + d_(k-1), outputClockAtArrival_k)` (with the initial
PlaybackClock 0 in place of `start_0 + d_0`), and when every chunk arrives
before the previous one finishes playing the final PlaybackClock is the sum
of all the durations. -/
theorem playback_schedule_correct (chunks : List (ℚ × ℚ)) :
    (runChunks SchedState.init chunks).2.map Prod.fst =
        specStartTimes 0 chunks ∧
    (arrivesOnTime 0 chunks = true →
      (runChunks SchedState.init chunks).1.nextStartTime =
        (chunks.map Prod.snd).sum) := by
  refine ⟨(runChunks_starts SchedState.init chunks).1, fun h => ?_⟩
  have := runChunks_clock_of_onTime SchedState.init chunks h
  simpa [SchedState.init] using this

/-- Witness for C1 at a concrete chunk sequence: two chunks of durations 2
and 3, the second arriving at output time 1 (before the first ends at 2). -/
theorem playback_schedule_correct_witness :
    (runChunks SchedState.init [((0 : ℚ), (2 : ℚ)), (1, 3)]).2.map Prod.fst =
        specStartTimes 0 [((0 : ℚ), (2 : ℚ)), (1, 3)] ∧
    (runChunks SchedState.init [((0 : ℚ), (2 : ℚ)), (1, 3)]).1.nextStartTime =
        ([((0 : ℚ), (2 : ℚ)), (1, 3)].map Prod.snd).sum := by
  exact ⟨(playback_schedule_correct [(0, 2), (1, 3)]).1,
    (playback_schedule_correct [(0, 2), (1, 3)]).2 (by norm_num [arrivesOnTime])⟩

/-! ## Geocoding collaborator: `fetchAddress` (App.tsx lines 78-104) -/

/-- A geolocation fix: the coordinates reported by the device. -/
structure GeoPosition where
  latitude : ℚ
  longitude : ℚ
  deriving Repr, DecidableEq

/-- Outcome of `navigator.geolocation.getCurrentPosition`. -/
inductive GeolocationOutcome where
  | unsupported
  | denied
  | success (pos : GeoPosition)
  deriving Repr, DecidableEq

/-- Outcome of the reverse-geocoding HTTP fetch: a JSON response whose
`display_name` field may be absent, or any failure (abort on timeout,
network error, bad response body). -/
inductive FetchOutcome where
  | response (displayName : Option String)
  | failure
  deriving Repr, DecidableEq

/-- The payload `fetchAddress` resolves with: exactly one of the three
fields is populated.  It has no coordinate fields at all. -/
structure GeoResult where
  address : Option String := none
  note : Option String := none
  error : Option String := none
  deriving Repr, DecidableEq

/-- `setTimeout(() => controller.abort(), 5000)` (App.tsx line 88). -/
def reverseGeocodeTimeoutMs : ℕ := 5000

/-- `{ enableHighAccuracy: true, timeout: 8000 }` (App.tsx line 101). -/
def geolocationTimeoutMs : ℕ := 8000

/-- `fetchAddress` (App.tsx lines 78-104).  It always resolves (never
rejects): unsupported geolocation and denied permission resolve with an
`error` payload, a fetch failure resolves with a fixed `note` payload, and a
successful fetch resolves with the `display_name` (or a fallback string). -/
def fetchAddress (geo : GeolocationOutcome) (web : FetchOutcome) : GeoResult :=
  match geo with
  | .unsupported => { error := some "Geolocation not supported" }
  | .denied => { error := some "Location access denied." }
  | .success _pos =>
      match web with
      | .response dn => { address := some (dn.getD "Unknown location") }
      | .failure => { note := some "Location found but address service timed out." }

/-! ## Tool dispatcher (App.tsx lines 214-223) -/

/-- One entry of `msg.toolCall.functionCalls`. -/
structure FunctionCall where
  id : String
  name : String
  deriving Repr, DecidableEq

/-- One `sendToolResponse` payload: `{ id, name, response: { result } }`. -/
structure ToolResponse where
  id : String
  name : String
  response : GeoResult
  deriving Repr, DecidableEq

/-- The single registered tool name (App.tsx lines 29-33 and 216). -/
def registeredToolName : String := "get_location_address"

/-- The `for (const fc of msg.toolCall.functionCalls)` loop (App.tsx lines
215-222): each call whose name is registered triggers one `fetchAddress`
invocation and one response keyed by the call's own id; any other name is
skipped with no response.  `results k` is the payload the k-th `fetchAddress`
invocation resolves with. -/
def dispatchToolCalls (results : ℕ → GeoResult) :
    List FunctionCall → ℕ → List ToolResponse
  | [], _ => []
  | fc :: rest, k =>
      if fc.name = registeredToolName then
        { id := fc.id, name := fc.name, response := results k } ::
          dispatchToolCalls results rest (k + 1)
      else
        dispatchToolCalls results rest k

/-! ## Narration analyzer (App.tsx lines 225-239) -/

/-- `p` is a prefix of `s` (character lists). -/
def charPrefix : List Char → List Char → Bool
  | [], _ => true
  | _ :: _, [] => false
  | p :: ps, c :: cs => p == c && charPrefix ps cs

/-- `p` occurs as a contiguous substring of `s` (character lists). -/
def charSub (p : List Char) : List Char → Bool
  | [] => charPrefix p []
  | c :: t => charPrefix p (c :: t) || charSub p t

/-- JavaScript `String.prototype.includes`: substring containment. -/
def includesStr (s pat : String) : Bool := charSub pat.data s.data

/-- JavaScript `String.prototype.toLowerCase` restricted to the ASCII range
the keyword vocabulary lives in. -/
def lowerChar (c : Char) : Char :=
  if 65 ≤ c.toNat ∧ c.toNat ≤ 90 then Char.ofNat (c.toNat + 32) else c

/-- Lower-casing of a whole string, character by character. -/
def lowerStr (s : String) : String := ⟨s.data.map lowerChar⟩

/-- The fixed `criticalKeywords` list (App.tsx lines 229-233). -/
def criticalKeywords : List String :=
  ["warning", "danger", "knife", "approaching", "running", "intent",
   "alert", "weapon", "fast", "urgent", "dog", "car", "gun",
   "threatening", "stop", "get back", "someone coming", "charging"]

/-- `criticalKeywords.some(word => textLower.includes(word))` (App.tsx line
234) applied to `text.toLowerCase()`: substring containment, not word
membership. -/
def containsKeyword (text : String) : Bool :=
  criticalKeywords.any (fun w => includesStr (lowerStr text) w)

/-- Dwell window of the threat flag: `setTimeout(..., 5000)` (App.tsx 237). -/
def dwellMs : ℕ := 5000

/-! ## Engine state and the full `onmessage` handler -/

/-- State mutated by `onmessage` outside the tool branch: the playback
scheduler, the threat flag, the multiset of pending (never-cancelled)
`setTimeout` expiry instants armed by line 237, and `lastNarration`. -/
structure EngineState where
  sched : SchedState
  isThreatDetected : Bool
  threatTimers : List ℕ
  lastNarration : String
  deriving Repr, DecidableEq

/-- Initial engine state. -/
def EngineState.init : EngineState := ⟨SchedState.init, false, [], ""⟩

/-- Handling of `msg.serverContent.outputTranscription` (App.tsx lines
225-239) at wall-clock instant `nowMs`; `cv` is whether the platform exposes
`navigator.vibrate`.  Returns the new state and whether `vibrate` was
called.  On a keyword match a fresh 5000 ms timeout is armed; the previous
one, if any, is NOT cleared. -/
def handleTranscript (s : EngineState) (nowMs : ℕ) (cv : Bool)
    (text : String) : EngineState × Bool :=
  let s1 := { s with lastNarration := text }
  if containsKeyword text then
    ({ s1 with isThreatDetected := true,
               threatTimers := s1.threatTimers ++ [nowMs + dwellMs] }, cv)
  else (s1, false)

/-- Firing of one armed `setTimeout(() => setIsThreatDetected(false), 5000)`
callback: unconditionally sets the flag false.  A timeout fires only if it
was armed, and fires once. -/
def fireThreatTimeout (s : EngineState) (expiry : ℕ) : EngineState :=
  if expiry ∈ s.threatTimers then
    { s with isThreatDetected := false,
             threatTimers := s.threatTimers.erase expiry }
  else s

/-- The transcription branch of `onmessage` (absent field: no-op). -/
def transcriptPhase (nowMs : ℕ) (cv : Bool) (s : EngineState)
    (tr : Option String) : EngineState × Bool :=
  match tr with
  | none => (s, false)
  | some text => handleTranscript s nowMs cv text

/-- The audio branch of `onmessage` (App.tsx lines 241-258). -/
def audioPhase (now : ℚ) (dec : Option ℚ) (s : EngineState)
    (hasAudio : Bool) : EngineState × Option (ℚ × ℚ) :=
  if hasAudio then
    let r := handleAudioChunk s.sched now dec
    ({ s with sched := r.1 }, r.2)
  else (s, none)

/-- The interruption branch of `onmessage` (App.tsx lines 260-264): runs
LAST; returns the ids of the sources that were stopped. -/
def interruptPhase (s : EngineState) (intr : Bool) : EngineState × List ℕ :=
  if intr then
    ({ s with sched := handleInterrupted s.sched }, s.sched.sources)
  else (s, [])

/-- One inbound `LiveServerMessage`, restricted to the fields `onmessage`
reads. -/
structure ServerMessage where
  toolCalls : List FunctionCall := []
  outputTranscription : Option String := none
  hasAudio : Bool := false
  interrupted : Bool := false
  deriving Repr, DecidableEq

/-- Environment effects consumed while handling one message. -/
structure MsgEnv where
  nowMs : ℕ
  audioNow : ℚ
  decodeResult : Option ℚ
  canVibrate : Bool
  fetchResults : ℕ → GeoResult

/-- Observable outputs of handling one message. -/
structure MsgOutputs where
  toolResponses : List ToolResponse
  scheduled : Option (ℚ × ℚ)
  vibrated : Bool
  stopped : List ℕ
  deriving Repr, DecidableEq

/-- The whole `onmessage` callback (App.tsx lines 211-265), in source order:
tool calls, transcription, audio, interruption. -/
def onmessage (env : MsgEnv) (s : EngineState) (msg : ServerMessage) :
    EngineState × MsgOutputs :=
  let responses := dispatchToolCalls env.fetchResults msg.toolCalls 0
  let tr := transcriptPhase env.nowMs env.canVibrate s msg.outputTranscription
  let au := audioPhase env.audioNow env.decodeResult tr.1 msg.hasAudio
  let fin := interruptPhase au.1 msg.interrupted
  (fin.1, ⟨responses, au.2, tr.2, fin.2⟩)

/-! ### Helper lemmas on the message phases -/

lemma handleTranscript_sched (s : EngineState) (nowMs : ℕ) (cv : Bool)
    (text : String) : (handleTranscript s nowMs cv text).1.sched = s.sched := by
  unfold handleTranscript
  split <;> rfl

lemma transcriptPhase_sched (nowMs : ℕ) (cv : Bool) (s : EngineState)
    (tr : Option String) : (transcriptPhase nowMs cv s tr).1.sched = s.sched := by
  cases tr with
  | none => rfl
  | some text => exact handleTranscript_sched s nowMs cv text

lemma handleAudioChunk_sources_mono (s : SchedState) (now : ℚ)
    (dec : Option ℚ) (u : ℕ) (hu : u ∈ s.sources) :
    u ∈ (handleAudioChunk s now dec).1.sources := by
  cases dec with
  | none => simpa [handleAudioChunk] using hu
  | some d => simp [handleAudioChunk, List.mem_append, hu]

lemma audioPhase_sources_mono (now : ℚ) (dec : Option ℚ) (s : EngineState)
    (ha : Bool) (u : ℕ) (hu : u ∈ s.sched.sources) :
    u ∈ (audioPhase now dec s ha).1.sched.sources := by
  cases ha with
  | false => simpa [audioPhase] using hu
  | true => simpa [audioPhase] using handleAudioChunk_sources_mono s.sched now dec u hu

/-! ### C2 -/

/-- C2: whatever the current scheduler state and whatever else the message
carries, a message with `interrupted` set leaves the active source set empty
and the PlaybackClock at 0, and every unit that was in the active set when
the message arrived is among the stopped units. -/
theorem interrupted_resets_playback (env : MsgEnv) (s : EngineState)
    (msg : ServerMessage) (h : msg.interrupted = true) :
    (onmessage env s msg).1.sched.sources = [] ∧
    (onmessage env s msg).1.sched.nextStartTime = 0 ∧
    ∀ u ∈ s.sched.sources, u ∈ (onmessage env s msg).2.stopped := by
  unfold onmessage interruptPhase
  rw [h]
  refine ⟨by simp [handleInterrupted], by simp [handleInterrupted], ?_⟩
  intro u hu
  simp only
  apply audioPhase_sources_mono
  rw [transcriptPhase_sched]
  exact hu

/-- Witness for C2: a state with one queued unit and a nonzero clock, a
message that also carries audio, an interruption at the end. -/
theorem interrupted_resets_playback_witness :
    ({ interrupted := true, hasAudio := true } : ServerMessage).interrupted = true ∧
    (onmessage ⟨0, 0, some 1, false, fun _ => ⟨none, none, none⟩⟩
        ⟨⟨3, [5], 6⟩, false, [], ""⟩
        { interrupted := true, hasAudio := true }).1.sched.sources = [] ∧
    (onmessage ⟨0, 0, some 1, false, fun _ => ⟨none, none, none⟩⟩
        ⟨⟨3, [5], 6⟩, false, [], ""⟩
        { interrupted := true, hasAudio := true }).1.sched.nextStartTime = 0 ∧
    ∀ u ∈ [5], u ∈ (onmessage ⟨0, 0, some 1, false, fun _ => ⟨none, none, none⟩⟩
        ⟨⟨3, [5], 6⟩, false, [], ""⟩
        { interrupted := true, hasAudio := true }).2.stopped := by
  refine ⟨rfl, ?_⟩
  exact interrupted_resets_playback _ ⟨⟨3, [5], 6⟩, false, [], ""⟩ _ rfl

/-! ### C5 -/

/-- C5: a chunk whose decode fails is skipped: no unit is added to the
active set, nothing is scheduled, and (output time being monotone) a later
successfully decoded chunk is still scheduled at
`max (PlaybackClock, currentOutputTime)` computed from the clock as it was
before the corrupt chunk, the clock advancing only by the decoded duration. -/
theorem decode_failure_skipped (s : SchedState) (t1 t2 d : ℚ)
    (hmono : t1 ≤ t2) :
    (handleAudioChunk s t1 none).1.sources = s.sources ∧
    (handleAudioChunk s t1 none).2 = none ∧
    (handleAudioChunk (handleAudioChunk s t1 none).1 t2 (some d)).2 =
        some (max s.nextStartTime t2, d) ∧
    (handleAudioChunk (handleAudioChunk s t1 none).1 t2 (some d)).1.nextStartTime =
        max s.nextStartTime t2 + d := by
  have hmax : max (max s.nextStartTime t1) t2 = max s.nextStartTime t2 := by
    rw [max_assoc, max_eq_right hmono]
  refine ⟨rfl, rfl, ?_, ?_⟩ <;> simp [handleAudioChunk, hmax]

/-- Witness for C5: corrupt chunk at output time 1, good chunk of duration 3
at output time 2, from the initial scheduler state. -/
theorem decode_failure_skipped_witness :
    (1 : ℚ) ≤ 2 ∧
    ((handleAudioChunk SchedState.init 1 none).1.sources = [] ∧
     (handleAudioChunk SchedState.init 1 none).2 = none ∧
     (handleAudioChunk (handleAudioChunk SchedState.init 1 none).1 2 (some 3)).2 =
         some (max SchedState.init.nextStartTime 2, 3) ∧
     (handleAudioChunk (handleAudioChunk SchedState.init 1 none).1 2
         (some 3)).1.nextStartTime = max SchedState.init.nextStartTime 2 + 3) := by
  exact ⟨by norm_num, decode_failure_skipped SchedState.init 1 2 3 (by norm_num)⟩

/-! ### C10 -/

/-- C10: keyword detection is substring containment on the lower-cased
transcript — any transcript whose lower-cased text contains one of the fixed
keywords as a contiguous substring (also inside a longer word) sets the
threat flag, and the vibration call is made exactly when the platform
exposes `navigator.vibrate`. -/
theorem keyword_substring_detection (s : EngineState) (nowMs : ℕ) (cv : Bool)
    (text w : String) (hw : w ∈ criticalKeywords)
    (hsub : includesStr (lowerStr text) w = true) :
    (handleTranscript s nowMs cv text).1.isThreatDetected = true ∧
    (handleTranscript s nowMs cv text).2 = cv := by
  have hkw : containsKeyword text = true := by
    unfold containsKeyword
    rw [List.any_eq_true]
    exact ⟨w, hw, hsub⟩
  constructor <;> simp [handleTranscript, hkw]

/-- Witness for C10: "Be careful" contains the keyword "car" inside the word
"careful", so the threat flag fires even though no car is mentioned. -/
theorem keyword_substring_detection_witness :
    "car" ∈ criticalKeywords ∧
    includesStr (lowerStr "Be careful") "car" = true ∧
    ((handleTranscript EngineState.init 0 true "Be careful").1.isThreatDetected = true ∧
     (handleTranscript EngineState.init 0 true "Be careful").2 = true) := by
  exact ⟨by decide, by decide,
    keyword_substring_detection EngineState.init 0 true "Be careful" "car"
      (by decide) (by decide)⟩

/-! ### C3 -/

/-- C3 counterexample: keyword matches at t=0 ms and t=3000 ms (both inside
the 5000 ms window).  The timeout armed by the FIRST match is never
cancelled; when it fires at t=5000 ms the flag becomes false — 3000 ms after
the second match, not 5000 ms — so the window is NOT restarted from the
second match. -/
theorem threat_retrigger_counterexample :
    (fireThreatTimeout
        (handleTranscript
            (handleTranscript EngineState.init 0 true "A dog is approaching").1
            3000 true "The dog is very close").1
        (0 + dwellMs)).isThreatDetected = false ∧
    0 + dwellMs < 3000 + dwellMs := by
  constructor
  · rfl
  · decide

/-- C3 amended: a keyword match sets the threat flag and arms a 5000 ms
timeout; absent re-trigger the flag auto-clears when that timeout fires at
t1 + 5000 ms.  A second match before expiry re-sets the flag and arms an
additional timeout but does NOT cancel the first, so the flag still becomes
false when the first match's timeout fires at t1 + 5000 ms (before
t2 + 5000 ms). -/
theorem threat_dwell_amended (t1 t2 : ℕ) (x y : String)
    (hx : containsKeyword x = true) (hy : containsKeyword y = true)
    (_hlt : t1 < t2) (_hin : t2 < t1 + dwellMs) :
    (handleTranscript EngineState.init t1 true x).1.isThreatDetected = true ∧
    (handleTranscript EngineState.init t1 true x).1.threatTimers = [t1 + dwellMs] ∧
    (fireThreatTimeout (handleTranscript EngineState.init t1 true x).1
        (t1 + dwellMs)).isThreatDetected = false ∧
    (handleTranscript (handleTranscript EngineState.init t1 true x).1
        t2 true y).1.threatTimers = [t1 + dwellMs, t2 + dwellMs] ∧
    (fireThreatTimeout
        (handleTranscript (handleTranscript EngineState.init t1 true x).1
            t2 true y).1
        (t1 + dwellMs)).isThreatDetected = false := by
  refine ⟨?_, ?_, ?_, ?_, ?_⟩ <;>
    simp [handleTranscript, fireThreatTimeout, EngineState.init,
      SchedState.init, hx, hy]

/-- Witness for C3's amended statement: matches at 0 ms and 3000 ms on two
dog transcripts. -/
theorem threat_dwell_amended_witness :
    containsKeyword "A dog is approaching" = true ∧
    containsKeyword "The dog is very close" = true ∧
    0 < 3000 ∧ 3000 < 0 + dwellMs ∧
    ((handleTranscript EngineState.init 0 true "A dog is approaching").1.isThreatDetected = true ∧
     (handleTranscript EngineState.init 0 true "A dog is approaching").1.threatTimers = [0 + dwellMs] ∧
     (fireThreatTimeout (handleTranscript EngineState.init 0 true "A dog is approaching").1
         (0 + dwellMs)).isThreatDetected = false ∧
     (handleTranscript (handleTranscript EngineState.init 0 true "A dog is approaching").1
         3000 true "The dog is very close").1.threatTimers = [0 + dwellMs, 3000 + dwellMs] ∧
     (fireThreatTimeout
         (handleTranscript (handleTranscript EngineState.init 0 true "A dog is approaching").1
             3000 true "The dog is very close").1
         (0 + dwellMs)).isThreatDetected = false) := by
  exact ⟨by decide, by decide, by decide, by decide,
    threat_dwell_amended 0 3000 "A dog is approaching" "The dog is very close"
      (by decide) (by decide) (by decide) (by decide)⟩

/-! ### Dispatcher lemmas -/

lemma dispatch_mem (f : ℕ → GeoResult) (calls : List FunctionCall) (k : ℕ)
    (fc : FunctionCall) (hmem : fc ∈ calls)
    (hname : fc.name = registeredToolName) :
    ∃ r ∈ dispatchToolCalls f calls k, r.id = fc.id ∧ r.name = fc.name := by
  induction calls generalizing k with
  | nil => cases hmem
  | cons c rest ih =>
      rcases List.mem_cons.mp hmem with hEq | hTail
      · subst hEq
        refine ⟨{ id := fc.id, name := fc.name, response := f k }, ?_, rfl, rfl⟩
        simp [dispatchToolCalls, hname]
      · by_cases hc : c.name = registeredToolName
        · obtain ⟨r, hr, hid⟩ := ih (k + 1) hTail
          exact ⟨r, by simp [dispatchToolCalls, hc, List.mem_cons, hr], hid⟩
        · obtain ⟨r, hr, hid⟩ := ih k hTail
          exact ⟨r, by simp [dispatchToolCalls, hc, hr], hid⟩

lemma dispatch_const_response (v : GeoResult) (calls : List FunctionCall)
    (k : ℕ) : ∀ r ∈ dispatchToolCalls (fun _ => v) calls k, r.response = v := by
  induction calls generalizing k with
  | nil => intro r hr; cases hr
  | cons c rest ih =>
      intro r hr
      by_cases hc : c.name = registeredToolName
      · simp only [dispatchToolCalls, hc, if_pos, List.mem_cons] at hr
        rcases hr with hEq | hTail
        · subst hEq; rfl
        · exact ih (k + 1) r hTail
      · simp only [dispatchToolCalls, hc, if_neg, not_false_iff] at hr
        exact ih k r hr

lemma dispatch_length (f : ℕ → GeoResult) (calls : List FunctionCall)
    (k : ℕ) : (dispatchToolCalls f calls k).length =
      (calls.filter (fun c => c.name == registeredToolName)).length := by
  induction calls generalizing k with
  | nil => rfl
  | cons c rest ih =>
      by_cases hc : c.name = registeredToolName
      · simp [dispatchToolCalls, hc, List.filter_cons, ih (k + 1)]
      · simp [dispatchToolCalls, hc, List.filter_cons, ih k]

lemma dispatch_all_unregistered (f : ℕ → GeoResult)
    (calls : List FunctionCall) (k : ℕ)
    (h : ∀ fc ∈ calls, fc.name ≠ registeredToolName) :
    dispatchToolCalls f calls k = [] := by
  induction calls generalizing k with
  | nil => rfl
  | cons c rest ih =>
      have hc : c.name ≠ registeredToolName := h c (List.mem_cons_self c rest)
      simp only [dispatchToolCalls, hc, if_neg, not_false_iff]
      exact ih k fun fc hfc => h fc (List.mem_cons_of_mem c hfc)

/-! ### C6 -/

/-- C6: with the geocoding collaborator in an arbitrary state — including
denied permission and HTTP failure — every registered call in the inbound
batch gets a response keyed by its own id carrying the (always-resolving)
`fetchAddress` payload, one response per registered call; and the failure
payloads are structured descriptions of the failure, never an unanswered
call. -/
theorem registered_tool_answered (geo : GeolocationOutcome)
    (web : FetchOutcome) (calls : List FunctionCall) :
    (∀ fc ∈ calls, fc.name = registeredToolName →
      ∃ r ∈ dispatchToolCalls (fun _ => fetchAddress geo web) calls 0,
        r.id = fc.id ∧ r.name = fc.name ∧ r.response = fetchAddress geo web) ∧
    (dispatchToolCalls (fun _ => fetchAddress geo web) calls 0).length =
      (calls.filter (fun c => c.name == registeredToolName)).length ∧
    (fetchAddress GeolocationOutcome.denied web).error =
      some "Location access denied." ∧
    (∀ pos, (fetchAddress (GeolocationOutcome.success pos) FetchOutcome.failure).note =
      some "Location found but address service timed out.") := by
  refine ⟨?_, dispatch_length _ calls 0, ?_, fun pos => rfl⟩
  · intro fc hmem hname
    obtain ⟨r, hr, hid, hnm⟩ := dispatch_mem (fun _ => fetchAddress geo web)
      calls 0 fc hmem hname
    exact ⟨r, hr, hid, hnm, dispatch_const_response _ calls 0 r hr⟩
  · cases web <;> rfl

/-- Witness for C6: two registered calls around an unregistered one, with
permission denied downstream — both still get responses keyed by their ids. -/
theorem registered_tool_answered_witness :
    (⟨"a", "get_location_address"⟩ : FunctionCall) ∈
        ([⟨"a", "get_location_address"⟩, ⟨"b", "other_tool"⟩,
          ⟨"c", "get_location_address"⟩] : List FunctionCall) ∧
    (⟨"a", "get_location_address"⟩ : FunctionCall).name = registeredToolName ∧
    (∃ r ∈ dispatchToolCalls
        (fun _ => fetchAddress GeolocationOutcome.denied FetchOutcome.failure)
        [⟨"a", "get_location_address"⟩, ⟨"b", "other_tool"⟩,
         ⟨"c", "get_location_address"⟩] 0,
      r.id = "a" ∧ r.name = "get_location_address" ∧
      r.response = fetchAddress GeolocationOutcome.denied FetchOutcome.failure) := by
  refine ⟨by decide, by decide, ?_⟩
  exact (registered_tool_answered GeolocationOutcome.denied FetchOutcome.failure
      [⟨"a", "get_location_address"⟩, ⟨"b", "other_tool"⟩,
       ⟨"c", "get_location_address"⟩]).1
    ⟨"a", "get_location_address"⟩ (by decide) (by decide)

/-! ### C7 -/

/-- C7: a message whose tool calls all carry unregistered names produces no
tool response at all (silent drop) and leaves the engine state unchanged. -/
theorem unregistered_tool_dropped (env : MsgEnv) (s : EngineState)
    (calls : List FunctionCall)
    (h : ∀ fc ∈ calls, fc.name ≠ registeredToolName) :
    (onmessage env s { toolCalls := calls }).2.toolResponses = [] ∧
    (onmessage env s { toolCalls := calls }).1 = s := by
  constructor
  · exact dispatch_all_unregistered env.fetchResults calls 0 h
  · rfl

/-- Witness for C7: a single call named `do_something_else` from the initial
state. -/
theorem unregistered_tool_dropped_witness :
    (∀ fc ∈ ([⟨"z", "do_something_else"⟩] : List FunctionCall),
      fc.name ≠ registeredToolName) ∧
    (onmessage ⟨0, 0, none, false, fun _ => ⟨none, none, none⟩⟩
        EngineState.init
        { toolCalls := [⟨"z", "do_something_else"⟩] }).2.toolResponses = [] ∧
    (onmessage ⟨0, 0, none, false, fun _ => ⟨none, none, none⟩⟩
        EngineState.init
        { toolCalls := [⟨"z", "do_something_else"⟩] }).1 = EngineState.init := by
  exact ⟨by decide,
    unregistered_tool_dropped ⟨0, 0, none, false, fun _ => ⟨none, none, none⟩⟩
      EngineState.init [⟨"z", "do_something_else"⟩] (by decide)⟩

/-! ### C9 -/

/-- C9 counterexample: when the reverse-geocoding fetch fails, the resolved
payload is the same fixed note for any coordinates — it carries neither an
address nor the latitude/longitude, so the lookup does NOT degrade to a
coordinates-only result. -/
theorem geocode_failure_counterexample :
    fetchAddress (GeolocationOutcome.success ⟨10, 20⟩) FetchOutcome.failure =
      fetchAddress (GeolocationOutcome.success ⟨30, 40⟩) FetchOutcome.failure ∧
    (fetchAddress (GeolocationOutcome.success ⟨10, 20⟩)
        FetchOutcome.failure).address = none ∧
    (fetchAddress (GeolocationOutcome.success ⟨10, 20⟩)
        FetchOutcome.failure).note =
      some "Location found but address service timed out." := by
  exact ⟨rfl, rfl, rfl⟩

/-- C9 amended: a 5000 ms abort timeout (within the 5-8 s range) guards the
HTTP reverse-geocoding call, and an 8000 ms timeout guards the geolocation
fix; on fetch failure the lookup degrades to a fixed note-only payload that
is independent of the coordinates (it carries neither address nor
coordinates), and on success it carries the returned display name or a
fallback string. -/
theorem geocode_timeout_and_degrade :
    reverseGeocodeTimeoutMs = 5000 ∧
    5000 ≤ reverseGeocodeTimeoutMs ∧ reverseGeocodeTimeoutMs ≤ 8000 ∧
    geolocationTimeoutMs = 8000 ∧
    (∀ p q : GeoPosition,
      fetchAddress (GeolocationOutcome.success p) FetchOutcome.failure =
        fetchAddress (GeolocationOutcome.success q) FetchOutcome.failure) ∧
    (∀ p : GeoPosition,
      fetchAddress (GeolocationOutcome.success p) FetchOutcome.failure =
        { note := some "Location found but address service timed out." }) ∧
    (∀ p : GeoPosition, ∀ dn : Option String,
      fetchAddress (GeolocationOutcome.success p) (FetchOutcome.response dn) =
        { address := some (dn.getD "Unknown location") }) := by
  exact ⟨rfl, le_refl _, by norm_num [reverseGeocodeTimeoutMs],
    rfl, fun p q => rfl, fun p => rfl, fun p dn => rfl⟩

/-! ## Outbound encoder: `processor.onaudioprocess` (App.tsx lines 178-185)

`int16[i] = data[i] * 32768` stores a float into an `Int16Array`: the value
is truncated toward zero and reduced modulo 2^16 into the signed 16-bit
range, with no dithering and no clipping guard.  Samples are modelled as
rationals (scaling by 2^15 is exact in binary floating point). -/

/-- Truncation toward zero (JavaScript `ToIntegerOrInfinity`). -/
def truncQ (q : ℚ) : ℤ := if q < 0 then -⌊-q⌋ else ⌊q⌋

/-- JavaScript `ToInt16`: truncate, then wrap modulo 2^16 into
[-32768, 32767]. -/
def toInt16 (x : ℚ) : ℤ := (truncQ x + 32768) % 65536 - 32768

/-- The conversion loop: one 16-bit signed integer per float sample, by
linear scaling `sample * 32768`. -/
def encodeBlockInt16 (data : List ℚ) : List ℤ :=
  data.map (fun x => toInt16 (x * 32768))

/-- Little-endian byte pair of one stored 16-bit value (the
`new Uint8Array(int16.buffer)` view). -/
def int16LEBytes (n : ℤ) : List ℕ :=
  [(n % 65536).toNat % 256, (n % 65536).toNat / 256]

/-- The wire bytes of one encoded block. -/
def encodePCMBytes (data : List ℚ) : List ℕ :=
  (encodeBlockInt16 data).flatMap int16LEBytes

lemma toInt16_zero : toInt16 ((0 : ℚ) * 32768) = 0 := by
  norm_num [toInt16, truncQ]

lemma encodePCMBytes_length (data : List ℚ) :
    (encodePCMBytes data).length = 2 * data.length := by
  induction data with
  | nil => rfl
  | cons x t ih =>
      simp only [encodePCMBytes, encodeBlockInt16, List.map_cons,
        List.flatMap_cons, List.length_append] at *
      rw [ih]
      simp [int16LEBytes, List.length_cons]
      ring

lemma encodePCMBytes_replicate_zero (n : ℕ) :
    encodePCMBytes (List.replicate n (0 : ℚ)) = List.replicate (2 * n) 0 := by
  induction n with
  | zero => rfl
  | succ m ih =>
      have h2 : 2 * (m + 1) = 2 * m + 1 + 1 := by ring
      rw [List.replicate_succ, h2, List.replicate_succ, List.replicate_succ]
      simp only [encodePCMBytes, encodeBlockInt16, List.map_cons,
        List.flatMap_cons, toInt16_zero] at *
      rw [ih]
      norm_num [int16LEBytes]

/-! ### C8 -/

/-- C8: each captured sample yields exactly one 16-bit integer by the linear
scaling `sample * 32768` (truncated and wrapped, no dithering and no
clipping guard), every block encodes to two bytes per sample, and a block of
all-zero samples encodes to an all-zero 16-bit PCM byte buffer with the same
sample count. -/
theorem encoder_zero_block (data : List ℚ) (n : ℕ) :
    (encodeBlockInt16 data).length = data.length ∧
    (encodePCMBytes data).length = 2 * data.length ∧
    encodePCMBytes (List.replicate n (0 : ℚ)) = List.replicate (2 * n) 0 := by
  exact ⟨by simp [encodeBlockInt16], encodePCMBytes_length data,
    encodePCMBytes_replicate_zero n⟩

/-! ## Session lifecycle: `startSession` / `stopSession`
(App.tsx lines 106-135 and 137-284; `SessionStatus` from types.ts) -/

/-- The lifecycle states (types.ts). -/
inductive SessionStatus where
  | IDLE
  | CONNECTING
  | ACTIVE
  | ERROR
  deriving Repr, DecidableEq

/-- Lifecycle-level state: the status, the media streams whose hardware
tracks are still live (by id), the stream wired into the video element, the
sessions not yet closed (by id), the current session ref, and a fresh-id
counter. -/
structure AppState where
  status : SessionStatus
  heldStreams : List ℕ
  videoSrc : Option ℕ
  openSessions : List ℕ
  sessionRef : Option ℕ
  nextId : ℕ
  deriving Repr, DecidableEq

/-- Initial app state. -/
def AppState.init : AppState := ⟨.IDLE, [], none, [], none, 0⟩

/-- `startSession` (App.tsx lines 137-284) up to the connect call.  There is
no re-entrancy guard: on granted permissions it unconditionally acquires a
fresh media stream (`getUserMedia`), overwrites `videoRef.srcObject` and
`sessionPromiseRef` WITHOUT stopping the previous stream's tracks or closing
the previous session, and sets status CONNECTING (ACTIVE follows on
`onopen`).  On failure it reverts to IDLE. -/
def startSession (s : AppState) (mediaGranted : Bool) : AppState :=
  if mediaGranted then
    { status := .CONNECTING,
      heldStreams := s.heldStreams ++ [s.nextId],
      videoSrc := some s.nextId,
      openSessions := s.openSessions ++ [s.nextId],
      sessionRef := some s.nextId,
      nextId := s.nextId + 1 }
  else
    { s with status := .IDLE }

/-- `stopSession` (App.tsx lines 106-135): closes the session held in
`sessionPromiseRef`, stops the tracks of the stream wired into the video
element (and only that one), nulls both refs, sets status IDLE. -/
def stopSession (s : AppState) : AppState :=
  { status := .IDLE,
    heldStreams :=
      match s.videoSrc with
      | some v => s.heldStreams.erase v
      | none => s.heldStreams,
    videoSrc := none,
    openSessions :=
      match s.sessionRef with
      | some i => s.openSessions.erase i
      | none => s.openSessions,
    sessionRef := none,
    nextId := s.nextId }

/-! ### C4 -/

/-- C4 counterexample: starting twice from the initial state with granted
permissions leaves TWO live hardware acquisitions and TWO open sessions; the
second start neither reuses the first session (the ref moves to session 1)
nor fails (status is CONNECTING, not IDLE), and even a subsequent stop only
releases the second stream, leaking the first. -/
theorem double_start_counterexample :
    (startSession (startSession AppState.init true) true).heldStreams = [0, 1] ∧
    (startSession (startSession AppState.init true) true).heldStreams.length = 2 ∧
    (startSession (startSession AppState.init true) true).openSessions = [0, 1] ∧
    (startSession (startSession AppState.init true) true).sessionRef = some 1 ∧
    (startSession (startSession AppState.init true) true).status =
      SessionStatus.CONNECTING ∧
    (stopSession (startSession (startSession AppState.init true) true)).heldStreams =
      [0] := by
  decide

/-- C4 amended: `startSession` carries no guard — a second start while the
first is still up acquires a second stream and opens a second session, so
both acquisitions are held simultaneously, and `stopSession` afterwards
releases only the second stream, leaving the first leaked. -/
theorem double_start_amended (s : AppState)
    (_h1 : s.nextId ∉ s.heldStreams) (h2 : s.nextId + 1 ∉ s.heldStreams) :
    (startSession (startSession s true) true).heldStreams =
      s.heldStreams ++ [s.nextId, s.nextId + 1] ∧
    (startSession (startSession s true) true).openSessions =
      s.openSessions ++ [s.nextId, s.nextId + 1] ∧
    (startSession (startSession s true) true).sessionRef =
      some (s.nextId + 1) ∧
    (startSession (startSession s true) true).status =
      SessionStatus.CONNECTING ∧
    (stopSession (startSession (startSession s true) true)).heldStreams =
      s.heldStreams ++ [s.nextId] := by
  refine ⟨by simp [startSession], by simp [startSession], rfl, rfl, ?_⟩
  have hnot : s.nextId + 1 ∉ s.heldStreams ++ [s.nextId] := by
    simp only [List.mem_append, List.mem_singleton]
    rintro (h | h)
    · exact h2 h
    · omega
  simp only [stopSession, startSession, if_pos, List.append_assoc]
  rw [← List.append_assoc, List.erase_append_right _ hnot]
  simp

/-- Witness for C4's amended statement at the initial state. -/
theorem double_start_amended_witness :
    (AppState.init.nextId ∉ AppState.init.heldStreams) ∧
    (AppState.init.nextId + 1 ∉ AppState.init.heldStreams) ∧
    ((startSession (startSession AppState.init true) true).heldStreams =
        AppState.init.heldStreams ++ [AppState.init.nextId, AppState.init.nextId + 1] ∧
     (startSession (startSession AppState.init true) true).openSessions =
        AppState.init.openSessions ++ [AppState.init.nextId, AppState.init.nextId + 1] ∧
     (startSession (startSession AppState.init true) true).sessionRef =
        some (AppState.init.nextId + 1) ∧
     (startSession (startSession AppState.init true) true).status =
        SessionStatus.CONNECTING ∧
     (stopSession (startSession (startSession AppState.init true) true)).heldStreams =
        AppState.init.heldStreams ++ [AppState.init.nextId]) := by
  exact ⟨by decide, by decide,
    double_start_amended AppState.init (by decide) (by decide)⟩

end DejaVu
